import Mathlib

/-!
Verification development for the klonch task manager.

The definitions below are shallow embeddings of the Go source:
`internal/model/task.go` (data model), the list-view controller
(`applyFilter`, `matchesFilter`, `flattenTasks`, `checkDeferredResort`,
undo/redo, `loadTasks`, mode handlers) and the quick-add CLI
(`cmd/klonch/main.go`).  Strings are Lean `String`s, Go `time.Time`
values are integer timestamps (`Int`), Go maps keyed by id are
association lists, and the SQLite store is a function from id to an
optional row.
-/

namespace Klonch

/-! ### String helpers mirroring Go's `strings` package -/

/-- Go `strings.ToLower` (ASCII-level, which is all the source relies on). -/
def lowerStr (s : String) : String :=
  String.mk (s.toList.map Char.toLower)

/-- `sub` occurs as a contiguous segment of `l`. -/
def segOf (sub : List Char) : List Char → Bool
  | [] => sub.isPrefixOf []
  | c :: cs => sub.isPrefixOf (c :: cs) || segOf sub cs

/-- Go `strings.Contains s sub`: `sub` occurs as a substring of `s`. -/
def strContains (s sub : String) : Bool :=
  segOf sub.toList s.toList

/-- Go `strings.HasPrefix s pre`. -/
def hasPrefixStr (s pre : String) : Bool :=
  pre.toList.isPrefixOf s.toList

/-- Go `strings.TrimPrefix s pre`. -/
def trimPrefixStr (s pre : String) : String :=
  if hasPrefixStr s pre then String.mk (s.toList.drop pre.toList.length)
  else s

/-- Accumulating scan behind `fieldsStr` (`acc` holds the current word,
reversed). -/
def fieldsAux : List Char → List Char → List String
  | [], acc => if acc.isEmpty then [] else [String.mk acc.reverse]
  | c :: cs, acc =>
    if c.isWhitespace then
      if acc.isEmpty then fieldsAux cs []
      else String.mk acc.reverse :: fieldsAux cs []
    else fieldsAux cs (c :: acc)

/-- Go `strings.Fields`: split on whitespace runs, no empty pieces. -/
def fieldsStr (s : String) : List String :=
  fieldsAux s.toList []

/-- Go `strings.TrimSpace`. -/
def trimSpaceStr (s : String) : String :=
  String.mk
    (((s.toList.dropWhile Char.isWhitespace).reverse.dropWhile
        Char.isWhitespace).reverse)

/-- Go `strings.Join ws " "`. -/
def joinWords : List String → String
  | [] => ""
  | [w] => w
  | w :: ws => w ++ " " ++ joinWords ws

/-! ### Data model (`internal/model/task.go`) -/

/-- Task status enum; `name` is the stored string form. -/
inductive Status where
  | backlog | pending | inProgress | done | archived
deriving DecidableEq, Repr

def Status.name : Status → String
  | .backlog => "backlog"
  | .pending => "pending"
  | .inProgress => "in_progress"
  | .done => "done"
  | .archived => "archived"

/-- Task priority enum; `name` is the stored string form. -/
inductive Priority where
  | low | medium | high | urgent
deriving DecidableEq, Repr

def Priority.name : Priority → String
  | .low => "low"
  | .medium => "medium"
  | .high => "high"
  | .urgent => "urgent"

structure Tag where
  id : String
  name : String
deriving DecidableEq, Repr

structure Project where
  id : String
  name : String
  archived : Bool := false
deriving DecidableEq, Repr

/-- The scalar fields of `model.Task` (those stored in the tasks table,
plus the in-memory `Project` pointer resolved from the project map). -/
structure TaskCore where
  id : String
  title : String
  description : String := ""
  status : Status
  priority : Priority
  projectId : Option String := none
  parentId : Option String := none
  dueDate : Option Int := none
  completedAt : Option Int := none
  position : Int := 0
  createdAt : Int := 0
  project : Option Project := none
deriving DecidableEq, Repr

/-- `model.Task`: scalar core plus the loaded relationships
(`Tags`, `Subtasks`, `Dependencies`).  Recursive because a subtask is
itself a `Task`. -/
inductive Task where
  | mk (core : TaskCore) (tags : List Tag) (subtasks : List Task)
       (dependencies : List Task)

def Task.core : Task → TaskCore
  | .mk c _ _ _ => c

def Task.tags : Task → List Tag
  | .mk _ tg _ _ => tg

def Task.subtasks : Task → List Task
  | .mk _ _ s _ => s

def Task.dependencies : Task → List Task
  | .mk _ _ _ d => d

def Task.id (t : Task) : String := t.core.id
def Task.title (t : Task) : String := t.core.title
def Task.description (t : Task) : String := t.core.description
def Task.status (t : Task) : Status := t.core.status
def Task.priority (t : Task) : Priority := t.core.priority
def Task.projectId (t : Task) : Option String := t.core.projectId
def Task.parentId (t : Task) : Option String := t.core.parentId
def Task.dueDate (t : Task) : Option Int := t.core.dueDate
def Task.completedAt (t : Task) : Option Int := t.core.completedAt
def Task.position (t : Task) : Int := t.core.position
def Task.createdAt (t : Task) : Int := t.core.createdAt
def Task.project (t : Task) : Option Project := t.core.project

def Task.setPriority : Task → Priority → Task
  | .mk c tg s d, p => .mk { c with priority := p } tg s d

def Task.setProject : Task → Option Project → Task
  | .mk c tg s d, pr => .mk { c with project := pr } tg s d

def Task.setTags : Task → List Tag → Task
  | .mk c _ s d, tg => .mk c tg s d

def Task.setSubtasks : Task → List Task → Task
  | .mk c tg _ d, s => .mk c tg s d

def Task.setDependencies : Task → List Task → Task
  | .mk c tg s _, d => .mk c tg s d

/-! ### Filter engine (`applyFilter` / `matchesFilter` / `taskHasAllTags`) -/

/-- `taskHasAllTags`: the task carries every tag id in `tagIDs`. -/
def taskHasAllTags (t : Task) (tagIDs : List String) : Bool :=
  tagIDs.all (fun fid => t.tags.any (fun tg => tg.id == fid))

mutual

/-- `matchesFilter` from the list view: case-insensitive substring match
of the already-lowercased `filter` against title, description, project
name, tag names (the filter's leading `@` is stripped for the tag
check), status name, priority name (leading `!` stripped), and
recursively against every subtask. -/
def matchesFilter (filter : String) : Task → Bool
  | .mk c tags subtasks _ =>
    strContains (lowerStr c.title) filter ||
    strContains (lowerStr c.description) filter ||
    (match c.project with
     | some p => strContains (lowerStr p.name) filter
     | none => false) ||
    tags.any (fun tg => strContains (lowerStr tg.name) (trimPrefixStr filter "@")) ||
    strContains (lowerStr c.status.name) filter ||
    strContains (lowerStr c.priority.name) (trimPrefixStr filter "!") ||
    matchesFilterList filter subtasks

/-- The `for _, subtask := range task.Subtasks` loop of `matchesFilter`. -/
def matchesFilterList (filter : String) : List Task → Bool
  | [] => false
  | t :: ts => matchesFilter filter t || matchesFilterList filter ts

end

/-- View mode enum (`ListViewMode`): all / active / recent. -/
inductive ViewMode where
  | all | active | recent
deriving DecidableEq, Repr

/-- The view-mode branch of `applyFilter` (the `switch v.viewMode` with
its `continue`s).  `sevenDaysAgo` is computed once per pass from the
single `now` sample. -/
def passesViewMode (vm : ViewMode) (sevenDaysAgo : Int) (t : Task) : Bool :=
  match vm with
  | .all => true
  | .active => !(t.status == .done)
  | .recent =>
    if t.status == .done then
      match t.completedAt with
      | none => false
      | some c => !(c < sevenDaysAgo)
    else true

/-- The project-filter branch of `applyFilter`. -/
def passesProjectFilter (filterProjectID : String) (t : Task) : Bool :=
  filterProjectID == "" ||
    (match t.projectId with
     | none => false
     | some pid => pid == filterProjectID)

/-- The tag-filter branch of `applyFilter`. -/
def passesTagFilter (filterTagIDs : List String) (t : Task) : Bool :=
  filterTagIDs.isEmpty || taskHasAllTags t filterTagIDs

/-- The text-filter branch of `applyFilter` (the filter is lowercased
once before matching). -/
def passesSearchFilter (searchFilter : String) (t : Task) : Bool :=
  searchFilter == "" || matchesFilter (lowerStr searchFilter) t

/-- The filtering loop of `applyFilter`: the surviving top-level tasks,
in their `allTasks` order.  `now` is sampled once per pass; the Go code
derives `sevenDaysAgo` from it before the loop. -/
def applyFilterList (vm : ViewMode) (filterProjectID : String)
    (filterTagIDs : List String) (searchFilter : String) (now : Int)
    (allTasks : List Task) : List Task :=
  let sevenDaysAgo := now - 7 * 86400
  allTasks.filter (fun t =>
    passesViewMode vm sevenDaysAgo t &&
    passesProjectFilter filterProjectID t &&
    passesTagFilter filterTagIDs t &&
    passesSearchFilter searchFilter t)

/-! ### Flattener (`flattenTasks`) -/

/-- Lookup in a Go `map[string]bool` (absent keys read as `false`). -/
def lookupBool (m : List (String × Bool)) (k : String) : Bool :=
  (m.lookup k).getD false

/-- `flattenTasks`: emit each top-level task, immediately followed by
its subtasks when the task's id is expanded and it has subtasks. -/
def flattenTasks (expanded : List (String × Bool)) : List Task → List Task
  | [] => []
  | t :: ts =>
    (t :: (if lookupBool expanded t.id && !t.subtasks.isEmpty
           then t.subtasks else []))
      ++ flattenTasks expanded ts

/-! ### List-view state (`ListView`) -/

/-- Input mode enum (`ListMode`). -/
inductive ListMode where
  | normal | add | addSubtask | edit | search | command | confirmDelete
deriving DecidableEq, Repr

/-- The `ListView` fields the specified behaviour depends on.  Go maps
keyed by task id become association lists; `selected` only ever stores
`true` entries (the toggle deletes the key), so it is a plain id list. -/
structure ListView where
  allTasks : List Task
  tasks : List Task
  cursor : Nat
  selected : List String
  expanded : List (String × Bool)
  viewMode : ViewMode
  filterProjectID : String
  filterTagIDs : List String
  searchFilter : String
  input : String
  mode : ListMode
  deferResortTaskID : String
  focusAfterLoadTaskID : String
  statusMsg : String
  projects : List Project
  tags : List Tag
  blocked : List (String × Bool)

/-- `applyFilter`: recompute the rendered sequence from `allTasks` and
the view state (filter, then flatten), clamping the cursor.  `now` is
the single per-pass clock sample (`time.Now()` in Go). -/
def ListView.applyFilter (now : Int) (v : ListView) : ListView :=
  let filtered := applyFilterList v.viewMode v.filterProjectID
      v.filterTagIDs v.searchFilter now v.allTasks
  let ts := flattenTasks v.expanded filtered
  let cur := if ts.length ≤ v.cursor then ts.length - 1 else v.cursor
  { v with tasks := ts, cursor := cur }

/-- `hasActiveFilters`. -/
def ListView.hasActiveFilters (v : ListView) : Bool :=
  v.searchFilter ≠ "" || v.filterProjectID ≠ "" || !v.filterTagIDs.isEmpty

/-! ### Deferred resort (`updateLocalTaskPriority` / `checkDeferredResort`) -/

/-- The in-place update loop of `updateLocalTaskPriority`: set the
priority of the first task with the given id, leaving order intact. -/
def updateFirstPriority (taskID : String) (p : Priority) : List Task → List Task
  | [] => []
  | t :: ts =>
    if t.id == taskID then t.setPriority p :: ts
    else t :: updateFirstPriority taskID p ts

/-- `updateLocalTaskPriority`: patch the priority in `allTasks` and in
the flattened `tasks`, with no reload and no re-sort. -/
def ListView.updateLocalTaskPriority (v : ListView) (taskID : String)
    (p : Priority) : ListView :=
  { v with allTasks := updateFirstPriority taskID p v.allTasks,
           tasks := updateFirstPriority taskID p v.tasks }

/-- The `priorityChangedLocalMsg` branch of `Update` (success case):
apply the local priority write, mark the task resort-pending
(overwriting any previous marker) and return without a reload. -/
def ListView.handlePriorityChangedLocal (v : ListView) (taskID : String)
    (p : Priority) : ListView :=
  let v := v.updateLocalTaskPriority taskID p
  { v with deferResortTaskID := taskID,
           statusMsg := "Priority: " ++ p.name ++ " (move cursor to resort)" }

/-- `checkDeferredResort`: called after a cursor movement with the row
index the cursor started from; the returned flag is `true` exactly when
a reload command (`loadTasks`) is issued. -/
def ListView.checkDeferredResort (v : ListView) (oldCursor : Nat) :
    ListView × Bool :=
  if v.deferResortTaskID == "" then (v, false)
  else
    match v.tasks[oldCursor]? with
    | some t =>
      if t.id == v.deferResortTaskID then
        ({ v with deferResortTaskID := "" }, true)
      else (v, false)
    | none => (v, false)

/-- The `"down"`/`"j"` branch of `handleNormalMode`: advance the cursor
and run the deferred-resort check from the old row. -/
def ListView.moveCursorDown (v : ListView) : ListView × Bool :=
  if v.cursor < v.tasks.length - 1 then
    let old := v.cursor
    ListView.checkDeferredResort { v with cursor := v.cursor + 1 } old
  else (v, false)

/-- The `"up"`/`"k"` branch of `handleNormalMode`. -/
def ListView.moveCursorUp (v : ListView) : ListView × Bool :=
  if 0 < v.cursor then
    let old := v.cursor
    ListView.checkDeferredResort { v with cursor := v.cursor - 1 } old
  else (v, false)

/-! ### Normal-mode Escape (`handleNormalMode`, `case "esc"`) -/

/-- The Escape branch of `handleNormalMode` (no selector active):
clear, in order, selection, then all filters, then all expansions. -/
def ListView.handleNormalEsc (now : Int) (v : ListView) : ListView :=
  if !v.selected.isEmpty then { v with selected := [] }
  else if v.hasActiveFilters then
    ListView.applyFilter now
      { v with searchFilter := "", filterProjectID := "", filterTagIDs := [] }
  else if !v.expanded.isEmpty then
    ListView.applyFilter now { v with expanded := [] }
  else v

/-! ### Search mode (`handleSearchMode`) -/

/-- Keystrokes as the mode handlers see them.  The text-input widget is
an external collaborator; a printable character appends to its value
and backspace deletes the last character. -/
inductive Key where
  | enter | esc | char (c : Char) | backspace
deriving DecidableEq, Repr

/-- `v.input.Update(msg)` for the keys the embedding distinguishes. -/
def inputUpdate (s : String) : Key → String
  | .char c => s.push c
  | .backspace => String.mk s.toList.dropLast
  | _ => s

/-- `handleSearchMode`: Enter commits the trimmed input and leaves
Search mode; Escape leaves Search mode and resets the input widget to
the current `searchFilter`; every other keystroke updates the input and
re-applies the filter live. -/
def ListView.handleSearchMode (now : Int) (v : ListView) (k : Key) : ListView :=
  match k with
  | .enter =>
    ListView.applyFilter now
      { v with searchFilter := trimSpaceStr v.input, mode := .normal }
  | .esc =>
    { v with mode := .normal, input := v.searchFilter }
  | k =>
    let inp := inputUpdate v.input k
    ListView.applyFilter now { v with input := inp, searchFilter := inp }

/-! ### The backing store

The tasks table keyed by its primary key.  Only the columns the
specified statements read or write are modelled; SQL `NULL` text
columns and `""` coincide (the loader maps both to the empty string). -/

structure Row where
  id : String
  title : String
  description : String := ""
  status : Status
  priority : Priority
  projectId : Option String := none
  parentId : Option String := none
  dueDate : Option Int := none
  completedAt : Option Int := none
  position : Int := 0
  createdAt : Int := 0
  updatedAt : Int := 0
deriving DecidableEq, Repr

def Store := String → Option Row

/-- `DELETE FROM tasks WHERE id = ?` (from `deleteTaskByID` /
`deleteTasks`). -/
def execDeleteTask (taskID : String) (s : Store) : Store :=
  fun i => if i = taskID then none else s i

/-- Insert of a fresh row (`INSERT INTO tasks ... VALUES ...`); the
callers below only insert ids not currently present. -/
def execInsertRow (r : Row) (s : Store) : Store :=
  fun i => if i = r.id then some r else s i

/-- The row written by `restoreTask`'s INSERT from a task snapshot:
every snapshot column verbatim, with `updated_at` stamped `now`. -/
def rowOfTask (t : Task) (now : Int) : Row :=
  { id := t.id, title := t.title, description := t.description,
    status := t.status, priority := t.priority,
    projectId := t.projectId, parentId := t.parentId,
    dueDate := t.dueDate, completedAt := t.completedAt,
    position := t.position, createdAt := t.createdAt, updatedAt := now }

/-- `restoreTask`: re-insert a deleted task from its snapshot. -/
def restoreTask (t : Task) (now : Int) (s : Store) : Store :=
  execInsertRow (rowOfTask t now) s

/-- The column list of `restoreTaskState`'s UPDATE applied to an
existing row (`position` and `created_at` are not touched). -/
def applyTaskState (t : Task) (now : Int) (r : Row) : Row :=
  { r with title := t.title, description := t.description,
           status := t.status, priority := t.priority,
           projectId := t.projectId, parentId := t.parentId,
           dueDate := t.dueDate, completedAt := t.completedAt,
           updatedAt := now }

/-- `restoreTaskState`: `UPDATE tasks SET ... WHERE id = ?`. -/
def restoreTaskState (t : Task) (now : Int) (s : Store) : Store :=
  fun i => if i = t.id then (s i).map (applyTaskState t now) else s i

/-- `setTaskParent`: parent update, `NULL` when the id is empty. -/
def execSetParent (taskID parentID : String) (now : Int) (s : Store) : Store :=
  fun i =>
    if i = taskID then
      (s i).map (fun r =>
        { r with parentId := if parentID = "" then none else some parentID,
                 updatedAt := now })
    else s i

/-! ### Other mutation paths (for the `done ↔ completed_at` invariant) -/

/-- One iteration of `toggleSelected`'s loop: flip between done (with
`completed_at = now`) and pending (with `completed_at` cleared). -/
def toggleStatusRow (now : Int) (r : Row) : Row :=
  if r.status = .done then
    { r with status := .pending, completedAt := none, updatedAt := now }
  else
    { r with status := .done, completedAt := some now, updatedAt := now }

/-- One iteration of `archiveTasks`'s loop:
`UPDATE tasks SET status = 'archived', updated_at = ? WHERE id = ?`. -/
def archiveRow (now : Int) (r : Row) : Row :=
  { r with status := .archived, updatedAt := now }

/-- The row inserted by `createTask` (status `pending`, priority
`medium`, no `completed_at`). -/
def createRow (id title : String) (projectId : Option String)
    (now : Int) : Row :=
  { id := id, title := title, status := .pending, priority := .medium,
    projectId := projectId, createdAt := now, updatedAt := now }

/-- `updateTaskTitle`: `UPDATE tasks SET title = ?, updated_at = ?`. -/
def updateTitleRow (title : String) (now : Int) (r : Row) : Row :=
  { r with title := title, updatedAt := now }

/-- `cyclePriority`'s write:
`UPDATE tasks SET priority = ?, updated_at = ? WHERE id = ?`. -/
def setPriorityRow (p : Priority) (now : Int) (r : Row) : Row :=
  { r with priority := p, updatedAt := now }

/-- The `status == done ⟺ completed_at set` invariant on a store row. -/
def rowInvariant (r : Row) : Prop :=
  r.status = .done ↔ r.completedAt ≠ none

instance (r : Row) : Decidable (rowInvariant r) := by
  unfold rowInvariant; infer_instance

/-! ### Undo/redo (`UndoAction`, `executeUndo`, `executeRedo`) -/

/-- `UndoAction`: the recorded inverse data per action type.  `create`
and `delete` carry the snapshot of the created/deleted task; the update
kinds carry pre- and post-mutation snapshots. -/
inductive UndoAction where
  | create (taskID : String) (task : Task)
  | delete (taskID : String) (task : Task)
  | update (taskID : String) (oldTask newTask : Task)
  | toggleStatus (taskID : String) (oldTask newTask : Task)
  | setParent (taskID : String) (oldTask newTask : Task)

def UndoAction.taskID : UndoAction → String
  | .create tid _ => tid
  | .delete tid _ => tid
  | .update tid _ _ => tid
  | .toggleStatus tid _ _ => tid
  | .setParent tid _ _ => tid

/-- The parent id string `executeUndo`/`executeRedo` extract from a
snapshot (`""` when the snapshot has no parent). -/
def parentIdString (t : Task) : String :=
  match t.parentId with
  | some pid => pid
  | none => ""

/-- The store effect of `executeUndo`. -/
def executeUndo (now : Int) : UndoAction → Store → Store
  | .create tid _, s => execDeleteTask tid s
  | .delete _ t, s => restoreTask t now s
  | .update _ oldT _, s => restoreTaskState oldT now s
  | .toggleStatus _ oldT _, s => restoreTaskState oldT now s
  | .setParent tid oldT _, s => execSetParent tid (parentIdString oldT) now s

/-- The store effect of `executeRedo`. -/
def executeRedo (now : Int) : UndoAction → Store → Store
  | .create _ t, s => restoreTask t now s
  | .delete tid _, s => execDeleteTask tid s
  | .update _ _ newT, s => restoreTaskState newT now s
  | .toggleStatus _ _ newT, s => restoreTaskState newT now s
  | .setParent tid _ newT, s => execSetParent tid (parentIdString newT) now s

/-! ### Data loader (`loadTasks`) and the `tasksLoadedMsg` handler -/

/-- The store query interface `loadTasks` consumes.  Errors are opaque.
`queryTopLevelRows` stands for the top-level SELECT together with its
row scan: its tasks carry no relations yet (those are phase 2). -/
structure TaskStore where
  getProjects : Except Unit (List Project)
  getTags : Except Unit (List Tag)
  queryTopLevelRows : Except Unit (List Task)
  getTaskTags : String → Except Unit (List Tag)
  getSubtasks : String → Except Unit (List Task)
  getTaskDependencies : String → Except Unit (List Task)
  isTaskBlocked : String → Except Unit Bool

/-- A successful reload result (`tasksLoadedMsg` payload). -/
structure LoadResult where
  tasks : List Task
  projects : List Project
  tags : List Tag
  blocked : List (String × Bool)

/-- A Go `_`-discarded error: the zero value replaces the result. -/
def orDefault {α : Type} (d : α) : Except Unit α → α
  | .ok a => a
  | .error _ => d

/-- `loadTasks`.  Phase 1 (projects, tags, the top-level scan) aborts
the whole reload on error.  The project map lookup is in-memory.
Phase 2 (per-task tags, subtasks, dependencies, blocked flags) discards
every error with `_`, substituting the zero value. -/
def loadTasks (db : TaskStore) : Except Unit LoadResult :=
  match db.getProjects with
  | .error e => .error e
  | .ok projects =>
    match db.getTags with
    | .error e => .error e
    | .ok tags =>
      match db.queryTopLevelRows with
      | .error e => .error e
      | .ok rows =>
        let projectOf : Option String → Option Project := fun pid? =>
          match pid? with
          | none => none
          | some pid => projects.find? (fun p => p.id == pid)
        let phase1 := rows.map (fun t => t.setProject (projectOf t.projectId))
        let enriched := phase1.map (fun t =>
          let taskTags := orDefault [] (db.getTaskTags t.id)
          let subtasks := (orDefault [] (db.getSubtasks t.id)).map (fun st =>
            (st.setProject (projectOf st.projectId)).setTags
              (orDefault [] (db.getTaskTags st.id)))
          let deps := orDefault [] (db.getTaskDependencies t.id)
          ((t.setTags taskTags).setSubtasks subtasks).setDependencies deps)
        let blocked := enriched.filterMap (fun t =>
          if t.dependencies.isEmpty then none
          else some (t.id, orDefault false (db.isTaskBlocked t.id)))
        .ok { tasks := enriched, projects := projects, tags := tags,
              blocked := blocked }

/-- The `tasksLoadedMsg` branch of `Update`: an error only sets the
status message (prior state retained); success adopts the loaded data
wholesale, recomputes the visible sequence and handles the
focus-after-load / cursor-clamp bookkeeping. -/
def ListView.handleTasksLoaded (now : Int) (v : ListView)
    (msg : Except Unit LoadResult) : ListView :=
  match msg with
  | .error _ => { v with statusMsg := "Error loading tasks" }
  | .ok r =>
    let v := { v with allTasks := r.tasks, projects := r.projects,
                      tags := r.tags, blocked := r.blocked }
    let v := ListView.applyFilter now v
    let v := { v with
      statusMsg := "Loaded " ++ toString v.tasks.length ++ " tasks" }
    if v.focusAfterLoadTaskID ≠ "" then
      match v.tasks.findIdx? (fun t => t.id == v.focusAfterLoadTaskID) with
      | some i =>
        { v with cursor := i, deferResortTaskID := v.focusAfterLoadTaskID,
                 focusAfterLoadTaskID := "" }
      | none => { v with focusAfterLoadTaskID := "" }
    else if v.tasks.length ≤ v.cursor then
      { v with cursor := v.tasks.length - 1 }
    else v

/-! ### Quick-add CLI (`cmd/klonch/main.go`) -/

/-- A civil local time: day index plus clock, enough to express the
"end of day in local time" values `parseNaturalDate` produces. -/
structure LocalTime where
  day : Int
  hh : Nat
  mm : Nat
  ss : Nat
deriving DecidableEq, Repr

/-- End of the given local day (`23:59:59`, as built by
`time.Date(y, m, d, 23, 59, 59, 0, loc)`). -/
def endOfDay (d : Int) : LocalTime := ⟨d, 23, 59, 59⟩

/-- `nextWeekday`: the next strictly future day with the target weekday
(weekdays numbered 0–6 with Sunday = 0, as in Go). -/
def nextWeekday (todayDay : Int) (curWeekday target : Nat) : LocalTime :=
  let daysUntil : Int := (target : Int) - (curWeekday : Int)
  let daysUntil := if daysUntil ≤ 0 then daysUntil + 7 else daysUntil
  endOfDay (todayDay + daysUntil)

/-- `parseNaturalDate`: keyword dates resolve to end of day; anything
else falls through to the explicit date-format parser, which the spec
leaves as an external contract and is therefore a parameter here.
`todayDay`/`curWeekday` stand for the `time.Now()` sample. -/
def parseNaturalDate (todayDay : Int) (curWeekday : Nat)
    (tryFormats : String → Option LocalTime) (s : String) :
    Option LocalTime :=
  match lowerStr s with
  | "today" => some (endOfDay todayDay)
  | "tomorrow" | "tom" => some (endOfDay (todayDay + 1))
  | "monday" | "mon" => some (nextWeekday todayDay curWeekday 1)
  | "tuesday" | "tue" => some (nextWeekday todayDay curWeekday 2)
  | "wednesday" | "wed" => some (nextWeekday todayDay curWeekday 3)
  | "thursday" | "thu" => some (nextWeekday todayDay curWeekday 4)
  | "friday" | "fri" => some (nextWeekday todayDay curWeekday 5)
  | "saturday" | "sat" => some (nextWeekday todayDay curWeekday 6)
  | "sunday" | "sun" => some (nextWeekday todayDay curWeekday 0)
  | "nextweek" => some (endOfDay (todayDay + 7))
  | _ => tryFormats s

/-- The fields `parseQuickAdd` fills in (id generation is orthogonal
and omitted). -/
structure QuickAddTask where
  title : String := ""
  priority : Priority := .medium
  dueDate : Option LocalTime := none
  parsedTags : List String := []
  parsedProject : String := ""
deriving DecidableEq, Repr

/-- One iteration of `parseQuickAdd`'s word switch; `acc` carries the
task under construction and the title words collected so far. -/
def quickAddWord (todayDay : Int) (curWeekday : Nat)
    (tryFormats : String → Option LocalTime)
    (acc : QuickAddTask × List String) (word : String) :
    QuickAddTask × List String :=
  let (task, titleParts) := acc
  if hasPrefixStr word "#" then
    ({ task with parsedProject := trimPrefixStr word "#" }, titleParts)
  else if hasPrefixStr word "@" then
    ({ task with parsedTags := task.parsedTags ++ [word] }, titleParts)
  else if hasPrefixStr word "!" then
    match lowerStr (trimPrefixStr word "!") with
    | "low" | "l" => ({ task with priority := .low }, titleParts)
    | "medium" | "med" | "m" => ({ task with priority := .medium }, titleParts)
    | "high" | "hi" | "h" => ({ task with priority := .high }, titleParts)
    | "urgent" | "u" => ({ task with priority := .urgent }, titleParts)
    | _ => (task, titleParts ++ [word])
  else if hasPrefixStr (lowerStr word) "due:" then
    match parseNaturalDate todayDay curWeekday tryFormats
        (trimPrefixStr (lowerStr word) "due:") with
    | some d => ({ task with dueDate := some d }, titleParts)
    | none => (task, titleParts ++ [word])
  else (task, titleParts ++ [word])

/-- `parseQuickAdd`: tokenize on whitespace, interpret marker words,
join the rest into the title with single spaces, order preserved. -/
def parseQuickAdd (todayDay : Int) (curWeekday : Nat)
    (tryFormats : String → Option LocalTime) (text : String) :
    QuickAddTask :=
  let (task, titleParts) :=
    (fieldsStr text).foldl (quickAddWord todayDay curWeekday tryFormats)
      ({}, [])
  { task with title := joinWords titleParts }

/-- The task row inserted by the quick-add `handleAdd` (columns of its
INSERT statement). -/
structure QARow where
  id : String
  title : String
  status : Status
  priority : Priority
  projectId : String
  dueDate : Option LocalTime
deriving DecidableEq, Repr

/-- Everything `handleAdd` writes to the store. -/
structure AddOutcome where
  task : QARow
  projects : List Project
  tagRows : List Tag
  taskTagRows : List (String × String)
deriving Repr

/-- `handleAdd`: parse the sentence, resolve or create the target
project (default `inbox`), insert the task, then upsert each parsed tag
(id = lowercased name without the `@`) and its association. -/
def handleAdd (todayDay : Int) (curWeekday : Nat)
    (tryFormats : String → Option LocalTime) (newId : String)
    (projects : List Project) (text : String) : AddOutcome :=
  let task := parseQuickAdd todayDay curWeekday tryFormats text
  let found :=
    if task.parsedProject ≠ "" then
      projects.find? (fun p =>
        lowerStr p.name == lowerStr task.parsedProject && !p.archived)
    else none
  let (projectId, projectsAfter) :=
    if task.parsedProject = "" then ("inbox", projects)
    else
      match found with
      | some p => (p.id, projects)
      | none =>
        (lowerStr task.parsedProject,
         projects ++ [{ id := lowerStr task.parsedProject,
                        name := task.parsedProject }])
  let row : QARow :=
    { id := newId, title := task.title, status := .pending,
      priority := task.priority, projectId := projectId,
      dueDate := task.dueDate }
  let tagRows := task.parsedTags.map (fun tn =>
    ({ id := lowerStr (trimPrefixStr tn "@"), name := tn } : Tag))
  let assocs := task.parsedTags.map (fun tn =>
    (newId, lowerStr (trimPrefixStr tn "@")))
  { task := row, projects := projectsAfter, tagRows := tagRows,
    taskTagRows := assocs }

/-! ### Command interpreter (`allCommands` / `executeCommand`) -/

/-- One entry of the fixed command table (`CommandDef`); the display
strings (description, usage) are omitted. -/
structure CommandDef where
  name : String
  aliases : List String
  hasArgs : Bool
deriving DecidableEq, Repr

/-- The `allCommands` table. -/
def allCommands : List CommandDef :=
  [⟨"due", ["d"], true⟩,
   ⟨"priority", ["pri", "p"], true⟩,
   ⟨"tag", ["t"], true⟩,
   ⟨"project", ["proj", "mv", "move"], true⟩,
   ⟨"parent", ["setparent"], false⟩,
   ⟨"newproject", ["np", "addproject"], true⟩,
   ⟨"recolor", [], false⟩,
   ⟨"newtag", ["nt", "addtag"], true⟩,
   ⟨"recolortags", [], false⟩,
   ⟨"done", ["complete", "finish"], false⟩,
   ⟨"archive", ["arch"], false⟩,
   ⟨"delete", ["del", "rm"], false⟩,
   ⟨"theme", [], true⟩,
   ⟨"sort", [], true⟩,
   ⟨"filter", ["f"], true⟩,
   ⟨"filterproject", ["fp"], false⟩,
   ⟨"filtertag", ["ft"], false⟩,
   ⟨"clear", [], false⟩,
   ⟨"projects", ["lsp"], false⟩,
   ⟨"tags", ["lst"], false⟩,
   ⟨"starttime", ["start", "track"], false⟩,
   ⟨"stoptime", ["stop"], false⟩,
   ⟨"addtime", ["logtime"], true⟩,
   ⟨"help", ["h", "?"], false⟩]

/-- The mutation handlers `executeCommand` can dispatch to; `unknown`
is the default branch, which only sets an "Unknown command" status
message and never fails. -/
inductive CmdHandler where
  | setDue | setPriority | addTag | moveToProject | setParent
  | newProject | recolorProjects | newTag | recolorTags
  | listProjects | listTags | archive | toggleDone | setTheme
  | startTime | stopTime | addTime | showHelp
  | filterText | filterByProject | filterByTag | clearFilters | sortTasks
  | unknown (verb : String)
deriving DecidableEq, Repr

/-- The label → handler pairs of `executeCommand`'s `switch cmd`
(each Go `case "a", "b": return h` contributes one pair per label). -/
def dispatchCases : List (String × CmdHandler) :=
  [("due", .setDue), ("d", .setDue),
   ("priority", .setPriority), ("pri", .setPriority), ("p", .setPriority),
   ("tag", .addTag), ("t", .addTag),
   ("project", .moveToProject), ("proj", .moveToProject),
   ("mv", .moveToProject),
   ("parent", .setParent), ("setparent", .setParent),
   ("newproject", .newProject), ("np", .newProject),
   ("addproject", .newProject),
   ("recolor", .recolorProjects),
   ("newtag", .newTag), ("nt", .newTag), ("addtag", .newTag),
   ("recolortags", .recolorTags),
   ("projects", .listProjects), ("lsp", .listProjects),
   ("tags", .listTags), ("lst", .listTags),
   ("archive", .archive), ("arch", .archive),
   ("done", .toggleDone), ("complete", .toggleDone),
   ("theme", .setTheme),
   ("starttime", .startTime), ("start", .startTime), ("track", .startTime),
   ("stoptime", .stopTime), ("stop", .stopTime),
   ("addtime", .addTime), ("logtime", .addTime),
   ("help", .showHelp), ("h", .showHelp), ("?", .showHelp),
   ("filter", .filterText), ("f", .filterText),
   ("filterproject", .filterByProject), ("fp", .filterByProject),
   ("filtertag", .filterByTag), ("ft", .filterByTag),
   ("clear", .clearFilters),
   ("sort", .sortTasks)]

/-- Resolve one (already split-off) verb the way `executeCommand` does:
lowercase it and run it through the switch, whose default branch yields
`unknown` (a status message, never an error). -/
def dispatchVerb (verb : String) : CmdHandler :=
  let v := lowerStr verb
  (dispatchCases.lookup v).getD (.unknown v)

/-- `executeCommand`'s line handling: split into fields; an empty line
does nothing, otherwise the head is the verb and the rest the args. -/
def executeCommand (line : String) : Option (CmdHandler × List String) :=
  match fieldsStr line with
  | [] => none
  | verb :: args => some (dispatchVerb verb, args)

/-! ## Helper lemmas -/

@[simp] theorem Task.id_setPriority (t : Task) (p : Priority) :
    (t.setPriority p).id = t.id := by
  cases t; rfl

@[simp] theorem Task.parentId_setPriority (t : Task) (p : Priority) :
    (t.setPriority p).parentId = t.parentId := by
  cases t; rfl

theorem updateFirstPriority_map_id (taskID : String) (p : Priority)
    (l : List Task) :
    (updateFirstPriority taskID p l).map Task.id = l.map Task.id := by
  induction l with
  | nil => rfl
  | cons t ts ih =>
    by_cases h : t.id == taskID
    · simp [updateFirstPriority, h]
    · simp [updateFirstPriority, h, ih]

theorem flattenTasks_eq_bind (e : List (String × Bool)) (ts : List Task) :
    flattenTasks e ts
      = ts.flatMap (fun t =>
          t :: (if lookupBool e t.id && !t.subtasks.isEmpty
                then t.subtasks else [])) := by
  induction ts with
  | nil => rfl
  | cons t ts ih => simp [flattenTasks, ih]

theorem flattenTasks_filter_topLevel (e : List (String × Bool))
    (ts : List Task) (h1 : ∀ t ∈ ts, t.parentId = none)
    (h2 : ∀ t ∈ ts, ∀ s ∈ t.subtasks, s.parentId ≠ none) :
    (flattenTasks e ts).filter (fun t => t.parentId.isNone) = ts := by
  induction ts with
  | nil => rfl
  | cons t ts ih =>
    have ht : t.parentId = none := h1 t (by simp)
    have hsub :
        (if lookupBool e t.id && !t.subtasks.isEmpty
         then t.subtasks else []).filter (fun s => s.parentId.isNone) = [] := by
      split
      · refine List.filter_eq_nil_iff.2 (fun s hs => ?_)
        have := h2 t (by simp) s hs
        simpa [Option.isNone_iff_eq_none] using this
      · rfl
    have ihh := ih (fun x hx => h1 x (by simp [hx]))
      (fun x hx => h2 x (by simp [hx]))
    simp [flattenTasks, List.filter_append, List.filter_cons, ht, hsub, ihh,
      Option.isNone_iff_eq_none]

theorem lookup_eq_none_of_not_mem_keys {α β : Type} [BEq α] [LawfulBEq α]
    (l : List (α × β)) (k : α) (h : k ∉ l.map Prod.fst) :
    l.lookup k = none := by
  induction l with
  | nil => rfl
  | cons kv l ih =>
    simp only [List.map_cons, List.mem_cons] at h
    push_neg at h
    have hk : (k == kv.1) = false := by
      simpa [beq_iff_eq] using h.1
    cases kv with
    | mk a b => simpa [List.lookup, hk] using ih h.2

/-! ## Claims -/

/-- C1: the filter pass is a pure function of its inputs whose output
is a subsequence of `allTasks`, and a top-level task appears in it iff
it passes the view-mode filter, the project filter, every listed tag
id, and the case-insensitive text filter (which matches title,
description, project name, tag names with or without the `@` marker,
status name, priority name, and every subtask recursively), with "now"
sampled once per pass. -/
theorem applyFilter_visible_iff (vm : ViewMode) (pf : String)
    (tf : List String) (sf : String) (now : Int) (allTasks : List Task) :
    (applyFilterList vm pf tf sf now allTasks).Sublist allTasks ∧
    ∀ t, t ∈ applyFilterList vm pf tf sf now allTasks ↔
      (t ∈ allTasks ∧
       passesViewMode vm (now - 7 * 86400) t = true ∧
       passesProjectFilter pf t = true ∧
       passesTagFilter tf t = true ∧
       passesSearchFilter sf t = true) := by
  constructor
  · exact List.filter_sublist _
  · intro t
    simp [applyFilterList, List.mem_filter, and_assoc]

/-- C2: flattening emits the top-level tasks in their given order, and
emits a parent's subtasks immediately after it (in their stored order)
exactly when the parent's id is in the expanded set and it has at
least one subtask; removing a parent from the expanded set never
reorders the remaining top-level tasks. -/
theorem flattenTasks_spec (e : List (String × Bool)) (ts : List Task)
    (p : String) (h1 : ∀ t ∈ ts, t.parentId = none)
    (h2 : ∀ t ∈ ts, ∀ s ∈ t.subtasks, s.parentId ≠ none) :
    flattenTasks e ts
      = ts.flatMap (fun t =>
          t :: (if lookupBool e t.id && !t.subtasks.isEmpty
                then t.subtasks else [])) ∧
    (flattenTasks e ts).filter (fun t => t.parentId.isNone) = ts ∧
    (flattenTasks (e.filter (fun kv => kv.1 ≠ p)) ts).filter
        (fun t => t.parentId.isNone) = ts := by
  exact ⟨flattenTasks_eq_bind e ts,
    flattenTasks_filter_topLevel e ts h1 h2,
    flattenTasks_filter_topLevel _ ts h1 h2⟩

/-- A subtask sample (parent `p1`). -/
def subT : Task :=
  .mk { id := "s1", title := "sub", status := .pending, priority := .low,
        parentId := some "p1" } [] [] []

/-- A top-level sample task with one subtask. -/
def parentT : Task :=
  .mk { id := "p1", title := "parent", status := .pending,
        priority := .high } [] [subT] []

/-- Witness for C2 at a one-parent, one-subtask list with the parent
expanded. -/
theorem flattenTasks_spec_witness :
    (∀ t ∈ [parentT], t.parentId = none) ∧
    (∀ t ∈ [parentT], ∀ s ∈ t.subtasks, s.parentId ≠ none) ∧
    (flattenTasks [("p1", true)] [parentT]
        = [parentT].flatMap (fun t =>
            t :: (if lookupBool [("p1", true)] t.id && !t.subtasks.isEmpty
                  then t.subtasks else [])) ∧
     (flattenTasks [("p1", true)] [parentT]).filter
         (fun t => t.parentId.isNone) = [parentT] ∧
     (flattenTasks ([("p1", true)].filter (fun kv => kv.1 ≠ "p1"))
         [parentT]).filter (fun t => t.parentId.isNone) = [parentT]) :=
  ⟨by decide, by decide,
   flattenTasks_spec [("p1", true)] [parentT] "p1" (by decide) (by decide)⟩

/-- C3: a local priority change patches the task in place — the visible
sequence keeps its ids and order, the cursor stays put, and the task is
marked resort-pending, overwriting any previous marker (so at most one
task is ever pending).  A cursor movement starting from the pending row
clears the marker and triggers a reload; one starting from any other
row changes nothing of the marker and triggers no reload. -/
theorem deferredResort_spec (v : ListView) (taskID : String) (p : Priority)
    (old : Nat) :
    ((v.handlePriorityChangedLocal taskID p).tasks.map Task.id
        = v.tasks.map Task.id ∧
     (v.handlePriorityChangedLocal taskID p).allTasks.map Task.id
        = v.allTasks.map Task.id ∧
     (v.handlePriorityChangedLocal taskID p).cursor = v.cursor ∧
     (v.handlePriorityChangedLocal taskID p).deferResortTaskID = taskID) ∧
    (∀ t, v.deferResortTaskID ≠ "" → v.tasks[old]? = some t →
       t.id = v.deferResortTaskID →
       (v.checkDeferredResort old).1
         = { v with deferResortTaskID := "" } ∧
       (v.checkDeferredResort old).2 = true) ∧
    (∀ t, v.tasks[old]? = some t → t.id ≠ v.deferResortTaskID →
       (v.checkDeferredResort old).1 = v ∧
       (v.checkDeferredResort old).2 = false) := by
  refine ⟨⟨?_, ?_, rfl, rfl⟩, ?_, ?_⟩
  · exact updateFirstPriority_map_id taskID p v.tasks
  · exact updateFirstPriority_map_id taskID p v.allTasks
  · intro t hmark hget hid
    have hb : (v.deferResortTaskID == "") = false := by
      simpa [beq_iff_eq] using hmark
    constructor <;>
      simp [ListView.checkDeferredResort, hb, hget, hid]
  · intro t hget hid
    by_cases hmark : v.deferResortTaskID = ""
    · constructor <;> simp [ListView.checkDeferredResort, hmark]
    · have hb : (v.deferResortTaskID == "") = false := by
        simpa [beq_iff_eq] using hmark
      have hidb : (t.id == v.deferResortTaskID) = false := by
        simpa [beq_iff_eq] using hid
      constructor <;>
        simp [ListView.checkDeferredResort, hb, hget, hidb]

/-- A minimal list view used to instantiate the state-machine claims. -/
def exView : ListView :=
  { allTasks := [], tasks := [], cursor := 0, selected := [],
    expanded := [], viewMode := .all, filterProjectID := "",
    filterTagIDs := [], searchFilter := "", input := "",
    mode := .normal, deferResortTaskID := "", focusAfterLoadTaskID := "",
    statusMsg := "", projects := [], tags := [], blocked := [] }

/-- Witness for C3: a view whose pending marker sits under the old
cursor position resolves to a reload, and a non-pending row does not. -/
theorem deferredResort_spec_witness :
    (({ exView with tasks := [parentT], deferResortTaskID := "p1"
        } : ListView).checkDeferredResort 0).2 = true ∧
    (({ exView with tasks := [parentT], deferResortTaskID := "zz"
        } : ListView).checkDeferredResort 0).2 = false := by
  constructor
  · exact ((deferredResort_spec
      { exView with tasks := [parentT], deferResortTaskID := "p1" }
      "p1" .low 0).2.1 parentT (by decide) rfl rfl).2
  · exact ((deferredResort_spec
      { exView with tasks := [parentT], deferResortTaskID := "zz" }
      "zz" .low 0).2.2 parentT rfl (by decide)).2

/-- The observable fields of a store row named by the undo/redo claim:
title, status, priority, project, parent, due date. -/
def obsRow (r : Row) :
    String × Status × Priority × Option String × Option String × Option Int :=
  (r.title, r.status, r.priority, r.projectId, r.parentId, r.dueDate)

/-- The same observable fields read off a task snapshot. -/
def obsTask (t : Task) :
    String × Status × Priority × Option String × Option String × Option Int :=
  (t.title, t.status, t.priority, t.projectId, t.parentId, t.dueDate)

/-- Erase the `updated_at` stamp of an optional row (the restore
statements always stamp it with the clock). -/
def stripStamp : Option Row → Option Row :=
  Option.map (fun r => { r with updatedAt := 0 })

/-- "The store is in the state the recorded action left it in": what
holds of the store immediately after the mutation whose inverse data
`a` records (ids consistent with the snapshots, and the affected row —
up to its `updated_at` stamp — matching the action's post-state). -/
def postStateOk : UndoAction → Store → Prop
  | .create tid t, s => tid = t.id ∧ ∃ u, s tid = some (rowOfTask t u)
  | .delete tid t, s => tid = t.id ∧ s tid = none
  | .update tid o n, s => tid = o.id ∧ tid = n.id ∧
      ∃ r, s tid = some r ∧ applyTaskState n r.updatedAt r = r
  | .toggleStatus tid o n, s => tid = o.id ∧ tid = n.id ∧
      ∃ r, s tid = some r ∧ applyTaskState n r.updatedAt r = r
  | .setParent tid o n, s => tid = o.id ∧ tid = n.id ∧
      n.parentId ≠ some "" ∧ ∃ r, s tid = some r ∧ r.parentId = n.parentId

@[simp] theorem rowOfTask_id (t : Task) (n : Int) :
    (rowOfTask t n).id = t.id := rfl

theorem restoreTaskState_self (t : Task) (now : Int) (s : Store) :
    restoreTaskState t now s t.id = (s t.id).map (applyTaskState t now) := by
  simp [restoreTaskState]

theorem restoreTaskState_other (t : Task) (now : Int) (s : Store)
    (i : String) (h : i ≠ t.id) : restoreTaskState t now s i = s i := by
  simp [restoreTaskState, h]

theorem execSetParent_self (tid pid : String) (now : Int) (s : Store) :
    execSetParent tid pid now s tid
      = (s tid).map (fun r =>
          { r with parentId := if pid = "" then none else some pid,
                   updatedAt := now }) := by
  simp [execSetParent]

theorem execSetParent_other (tid pid : String) (now : Int) (s : Store)
    (i : String) (h : i ≠ tid) : execSetParent tid pid now s i = s i := by
  simp [execSetParent, h]

theorem applyTaskState_applyTaskState (o n : Task) (m₁ m₂ : Int) (r : Row) :
    applyTaskState n m₂ (applyTaskState o m₁ r) = applyTaskState n m₂ r := rfl

theorem strip_applyTaskState (n : Task) (m : Int) (r : Row) :
    ({ applyTaskState n m r with updatedAt := 0 } : Row)
      = applyTaskState n 0 r := rfl

theorem strip_rowOfTask (t : Task) (m : Int) :
    ({ rowOfTask t m with updatedAt := 0 } : Row) = rowOfTask t 0 := rfl

/-- C4 (amended): undo right after a create removes the created task;
undo right after a delete restores a row whose observable fields
(title, status, priority, project, parent, due date) equal those
before the deletion.  Undo-then-redo returns every other row to its
prior state exactly, and the affected row to its prior state up to the
`updated_at` column (which the restore statements stamp with the
current time); for delete records the round trip is exact. -/
theorem undoRedo_spec :
    (∀ (tid : String) (t : Task) (n : Int) (s : Store),
       executeUndo n (.create tid t) s tid = none) ∧
    (∀ (t : Task) (n : Int) (s : Store) (r : Row),
       s t.id = some r → obsRow r = obsTask t →
       ∃ r', executeUndo n (.delete t.id t) (execDeleteTask t.id s) t.id
               = some r' ∧ obsRow r' = obsRow r) ∧
    (∀ (a : UndoAction) (n₁ n₂ : Int) (s : Store), postStateOk a s →
       (∀ i, i ≠ a.taskID →
          executeRedo n₂ a (executeUndo n₁ a s) i = s i) ∧
       stripStamp (executeRedo n₂ a (executeUndo n₁ a s) a.taskID)
         = stripStamp (s a.taskID)) ∧
    (∀ (tid : String) (t : Task) (n₁ n₂ : Int) (s : Store),
       s tid = none → tid = t.id →
       executeRedo n₂ (.delete tid t) (executeUndo n₁ (.delete tid t) s)
         = s) := by
  refine ⟨?_, ?_, ?_, ?_⟩
  · intro tid t n s
    simp [executeUndo, execDeleteTask]
  · intro t n s r hr hobs
    refine ⟨rowOfTask t n, ?_, ?_⟩
    · simp [executeUndo, restoreTask, execInsertRow]
    · rw [hobs]; rfl
  · intro a n₁ n₂ s hpost
    cases a with
    | create tid t =>
      obtain ⟨hid, u, hu⟩ := hpost
      subst hid
      constructor
      · intro i hi
        simp only [UndoAction.taskID] at hi
        show execInsertRow (rowOfTask t n₂) (execDeleteTask t.id s) i = s i
        simp [execInsertRow, execDeleteTask, hi]
      · have hins : execInsertRow (rowOfTask t n₂) (execDeleteTask t.id s)
            t.id = some (rowOfTask t n₂) := by simp [execInsertRow]
        show stripStamp
            (execInsertRow (rowOfTask t n₂) (execDeleteTask t.id s) t.id)
            = stripStamp (s t.id)
        rw [hins, hu]
        rfl
    | delete tid t =>
      obtain ⟨hid, hnone⟩ := hpost
      subst hid
      constructor
      · intro i hi
        simp only [UndoAction.taskID] at hi
        show execDeleteTask t.id (execInsertRow (rowOfTask t n₁) s) i = s i
        simp [execInsertRow, execDeleteTask, hi]
      · show stripStamp
            (execDeleteTask t.id (execInsertRow (rowOfTask t n₁) s) t.id)
            = stripStamp (s t.id)
        rw [hnone]
        simp [execDeleteTask]
    | update tid o n =>
      obtain ⟨ho, hn, r, hr, hfix⟩ := hpost
      constructor
      · intro i hi
        simp only [UndoAction.taskID] at hi
        show restoreTaskState n n₂ (restoreTaskState o n₁ s) i = s i
        rw [restoreTaskState_other n n₂ _ i (hn ▸ hi),
          restoreTaskState_other o n₁ s i (ho ▸ hi)]
      · show stripStamp (restoreTaskState n n₂ (restoreTaskState o n₁ s) tid)
            = stripStamp (s tid)
        rw [hn, restoreTaskState_self, ← hn, ho, restoreTaskState_self,
          ← ho, hr]
        have hss : stripStamp (some (applyTaskState n r.updatedAt r))
            = stripStamp (some r) :=
          congrArg (fun x : Row => stripStamp (some x)) hfix
        exact hss
    | toggleStatus tid o n =>
      obtain ⟨ho, hn, r, hr, hfix⟩ := hpost
      constructor
      · intro i hi
        simp only [UndoAction.taskID] at hi
        show restoreTaskState n n₂ (restoreTaskState o n₁ s) i = s i
        rw [restoreTaskState_other n n₂ _ i (hn ▸ hi),
          restoreTaskState_other o n₁ s i (ho ▸ hi)]
      · show stripStamp (restoreTaskState n n₂ (restoreTaskState o n₁ s) tid)
            = stripStamp (s tid)
        rw [hn, restoreTaskState_self, ← hn, ho, restoreTaskState_self,
          ← ho, hr]
        have hss : stripStamp (some (applyTaskState n r.updatedAt r))
            = stripStamp (some r) :=
          congrArg (fun x : Row => stripStamp (some x)) hfix
        exact hss
    | setParent tid o n =>
      obtain ⟨ho, hn, hne, r, hr, hpar⟩ := hpost
      have hdecode :
          (if parentIdString n = "" then none else some (parentIdString n))
            = n.parentId := by
        cases hp : n.parentId with
        | none => simp [parentIdString, hp]
        | some pid =>
          have hpid : pid ≠ "" := by
            intro h; exact hne (by simpa [h] using hp)
          simp [parentIdString, hp, hpid]
      constructor
      · intro i hi
        simp only [UndoAction.taskID] at hi
        show execSetParent tid (parentIdString n) n₂
            (execSetParent tid (parentIdString o) n₁ s) i = s i
        rw [execSetParent_other _ _ _ _ i hi, execSetParent_other _ _ _ _ i hi]
      · show stripStamp (execSetParent tid (parentIdString n) n₂
            (execSetParent tid (parentIdString o) n₁ s) tid)
            = stripStamp (s tid)
        rw [execSetParent_self, execSetParent_self, hr]
        have hdr :
            (if parentIdString n = "" then none else some (parentIdString n))
              = r.parentId := hdecode.trans hpar.symm
        exact congrArg (fun p : Option String =>
          some ({ r with parentId := p, updatedAt := 0 } : Row)) hdr
  · intro tid t n₁ n₂ s hnone hid
    subst hid
    funext i
    by_cases hi : i = t.id
    · subst hi
      show execDeleteTask t.id (execInsertRow (rowOfTask t n₁) s) t.id = s t.id
      rw [hnone]
      simp [execDeleteTask]
    · show execDeleteTask t.id (execInsertRow (rowOfTask t n₁) s) i = s i
      simp [execDeleteTask, execInsertRow, hi]

/-- A freshly created task snapshot, as `taskCreatedMsg` carries it. -/
def crTask : Task :=
  .mk { id := "c1", title := "x", status := .pending,
        priority := .medium } [] [] []

/-- A store holding exactly the row the create wrote (stamped at 0). -/
def crStore : Store :=
  fun i => if i = "c1" then some (rowOfTask crTask 0) else none

/-- An empty store. -/
def emptyStore : Store := fun _ => none

/-- Counterexample to C4 as stated: undoing and then redoing a create
does not return the store to its pre-undo state, because the redo's
re-insert stamps `updated_at` with the redo time (2) while the pre-undo
row carried the original stamp (0). -/
theorem undoRedo_counterexample :
    executeRedo 2 (.create "c1" crTask)
        (executeUndo 1 (.create "c1" crTask) crStore) ≠ crStore := by
  intro h
  have h1 := congrFun h "c1"
  have hval : executeRedo 2 (.create "c1" crTask)
      (executeUndo 1 (.create "c1" crTask) crStore) "c1"
      = some (rowOfTask crTask 2) := by decide
  have hval2 : crStore "c1" = some (rowOfTask crTask 0) := by decide
  rw [hval, hval2] at h1
  injection h1 with h2
  have h3 : (2 : Int) = 0 := congrArg Row.updatedAt h2
  exact absurd h3 (by decide)

/-- Witness for C4 (amended) at a one-row store: the delete-undo
restores the observable fields, the create round trip agrees up to the
stamp, and the delete round trip is exact. -/
theorem undoRedo_spec_witness :
    (∃ r', executeUndo 1 (.delete crTask.id crTask)
        (execDeleteTask crTask.id crStore) crTask.id = some r' ∧
        obsRow r' = obsRow (rowOfTask crTask 0)) ∧
    ((∀ i, i ≠ (UndoAction.create "c1" crTask).taskID →
        executeRedo 2 (.create "c1" crTask)
          (executeUndo 1 (.create "c1" crTask) crStore) i = crStore i) ∧
     stripStamp (executeRedo 2 (.create "c1" crTask)
          (executeUndo 1 (.create "c1" crTask) crStore)
          ((UndoAction.create "c1" crTask).taskID))
        = stripStamp (crStore ((UndoAction.create "c1" crTask).taskID))) ∧
    executeRedo 2 (.delete "c1" crTask)
        (executeUndo 1 (.delete "c1" crTask) emptyStore) = emptyStore := by
  refine ⟨?_, ?_, ?_⟩
  · exact undoRedo_spec.2.1 crTask 1 crStore (rowOfTask crTask 0)
      (by decide) (by decide)
  · exact undoRedo_spec.2.2.1 (.create "c1" crTask) 1 2 crStore
      ⟨rfl, 0, by decide⟩
  · exact undoRedo_spec.2.2.2 "c1" crTask 1 2 emptyStore rfl rfl

/-- The `done ⟺ completed_at` invariant on a task snapshot. -/
def taskInvariant (t : Task) : Prop :=
  t.status = .done ↔ t.completedAt ≠ none

instance (t : Task) : Decidable (taskInvariant t) := by
  unfold taskInvariant; infer_instance

/-- C5 (amended): the create, toggle-done, title-edit, priority-change
and undo/redo-restore paths all maintain `status == done ⟺
completed_at set` (restores maintain it whenever the snapshot they
replay satisfied it; toggling establishes it unconditionally).  The
archive path does not: it rewrites the status to `archived` without
clearing `completed_at`, so archiving a done task violates the
invariant. -/
theorem statusInvariant_spec :
    (∀ (id title : String) (pid : Option String) (now : Int),
       rowInvariant (createRow id title pid now)) ∧
    (∀ (now : Int) (r : Row), rowInvariant (toggleStatusRow now r)) ∧
    (∀ (title : String) (now : Int) (r : Row), rowInvariant r →
       rowInvariant (updateTitleRow title now r)) ∧
    (∀ (p : Priority) (now : Int) (r : Row), rowInvariant r →
       rowInvariant (setPriorityRow p now r)) ∧
    (∀ (t : Task) (now : Int) (r : Row), taskInvariant t →
       rowInvariant (applyTaskState t now r)) ∧
    (∀ (t : Task) (now : Int), taskInvariant t →
       rowInvariant (rowOfTask t now)) ∧
    (∀ (now : Int) (r : Row), r.status = .done → rowInvariant r →
       ¬ rowInvariant (archiveRow now r)) ∧
    (∀ (now : Int) (r : Row), r.status ≠ .done → rowInvariant r →
       rowInvariant (archiveRow now r)) := by
  refine ⟨?_, ?_, ?_, ?_, ?_, ?_, ?_, ?_⟩
  · intro id title pid now
    simp [rowInvariant, createRow]
  · intro now r
    by_cases h : r.status = .done <;>
      simp [rowInvariant, toggleStatusRow, h]
  · intro title now r hr
    simpa [rowInvariant, updateTitleRow] using hr
  · intro p now r hr
    simpa [rowInvariant, setPriorityRow] using hr
  · intro t now r ht
    simpa [rowInvariant, applyTaskState] using ht
  · intro t now ht
    simpa [rowInvariant, rowOfTask] using ht
  · intro now r hdone hr
    have hcomp : r.completedAt ≠ none := hr.1 hdone
    intro hbad
    have : Status.archived = Status.done := hbad.2 (by
      simpa [archiveRow] using hcomp)
    exact absurd this (by decide)
  · intro now r hdone hr
    have hcomp : r.completedAt = none := by
      by_contra hc
      exact hdone (hr.2 hc)
    constructor
    · intro h
      simp [archiveRow] at h
    · intro h
      simp [archiveRow] at h
      exact absurd hcomp h

/-- A completed row (status done, `completed_at` set). -/
def doneRow : Row :=
  { id := "d1", title := "done task", status := .done,
    priority := .medium, completedAt := some 5 }

/-- Counterexample to C5 as stated: archiving a completed task leaves
`completed_at` set while the status becomes `archived`, breaking the
`status == done ⟺ completed_at set` invariant on the archive path. -/
theorem statusInvariant_counterexample :
    rowInvariant doneRow ∧ ¬ rowInvariant (archiveRow 6 doneRow) := by
  constructor
  · decide
  · decide

/-- Witness for C5 at concrete rows and snapshots. -/
theorem statusInvariant_spec_witness :
    rowInvariant (updateTitleRow "new" 3 doneRow) ∧
    rowInvariant (setPriorityRow .high 3 doneRow) ∧
    rowInvariant (applyTaskState crTask 3 doneRow) ∧
    rowInvariant (rowOfTask crTask 3) ∧
    ¬ rowInvariant (archiveRow 6 doneRow) ∧
    rowInvariant (archiveRow 6 (rowOfTask crTask 3)) := by
  refine ⟨?_, ?_, ?_, ?_, ?_, ?_⟩
  · exact statusInvariant_spec.2.2.1 "new" 3 doneRow (by decide)
  · exact statusInvariant_spec.2.2.2.1 .high 3 doneRow (by decide)
  · exact statusInvariant_spec.2.2.2.2.1 crTask 3 doneRow (by decide)
  · exact statusInvariant_spec.2.2.2.2.2.1 crTask 3 (by decide)
  · exact statusInvariant_spec.2.2.2.2.2.2.1 6 doneRow (by decide) (by decide)
  · exact statusInvariant_spec.2.2.2.2.2.2.2 6 (rowOfTask crTask 3)
      (by decide) (by decide)

/-- C6 (amended): a failure of any phase-1 query (projects, tags, the
top-level scan) aborts the whole reload and surfaces as a load error,
and on a load error the prior in-memory state (`allTasks`, `projects`,
`tags`, `blocked` — indeed everything but the status message) is
retained unmodified.  Phase-2 enrichment queries, however, can never
abort a reload: once phase 1 succeeds the reload succeeds. -/
theorem loadTasks_spec :
    (∀ db : TaskStore, db.getProjects = .error () →
       loadTasks db = .error ()) ∧
    (∀ (db : TaskStore) (ps : List Project), db.getProjects = .ok ps →
       db.getTags = .error () → loadTasks db = .error ()) ∧
    (∀ (db : TaskStore) (ps : List Project) (ts : List Tag),
       db.getProjects = .ok ps → db.getTags = .ok ts →
       db.queryTopLevelRows = .error () → loadTasks db = .error ()) ∧
    (∀ (db : TaskStore) (ps : List Project) (ts : List Tag)
       (rows : List Task),
       db.getProjects = .ok ps → db.getTags = .ok ts →
       db.queryTopLevelRows = .ok rows →
       ∃ res, loadTasks db = .ok res) ∧
    (∀ (v : ListView) (now : Int) (e : Unit),
       v.handleTasksLoaded now (.error e)
         = { v with statusMsg := "Error loading tasks" }) := by
  refine ⟨?_, ?_, ?_, ?_, ?_⟩
  · intro db h
    simp [loadTasks, h]
  · intro db ps h1 h2
    simp [loadTasks, h1, h2]
  · intro db ps ts h1 h2 h3
    simp [loadTasks, h1, h2, h3]
  · intro db ps ts rows h1 h2 h3
    simp only [loadTasks, h1, h2, h3]
    exact ⟨_, rfl⟩
  · intro v now e
    rfl

/-- A store whose phase-1 calls succeed (one bare top-level row) and
whose phase-2 enrichment calls all fail. -/
def exDB : TaskStore :=
  { getProjects := .ok [],
    getTags := .ok [],
    queryTopLevelRows := .ok [crTask],
    getTaskTags := fun _ => .error (),
    getSubtasks := fun _ => .error (),
    getTaskDependencies := fun _ => .error (),
    isTaskBlocked := fun _ => .error () }

/-- Counterexample to C6 as stated: every phase-2 enrichment query of
this reload fails (e.g. the tag lookup issued for the loaded task), yet
the reload does not abort — it succeeds, silently adopting the task
with empty tags, subtasks and dependencies. -/
theorem loadTasks_counterexample :
    exDB.getTaskTags crTask.id = .error () ∧
    loadTasks exDB
      = .ok { tasks := [crTask], projects := [], tags := [],
              blocked := [] } :=
  ⟨rfl, rfl⟩

/-- A store whose very first query fails. -/
def errDB : TaskStore :=
  { getProjects := .error (),
    getTags := .error (),
    queryTopLevelRows := .error (),
    getTaskTags := fun _ => .error (),
    getSubtasks := fun _ => .error (),
    getTaskDependencies := fun _ => .error (),
    isTaskBlocked := fun _ => .error () }

/-- Witness for C6 at concrete stores and a concrete view. -/
theorem loadTasks_spec_witness :
    loadTasks errDB = .error () ∧
    (∃ res, loadTasks exDB = .ok res) ∧
    exView.handleTasksLoaded 0 (.error ())
      = { exView with statusMsg := "Error loading tasks" } := by
  refine ⟨?_, ?_, ?_⟩
  · exact loadTasks_spec.1 errDB rfl
  · exact loadTasks_spec.2.2.2.1 exDB [] [] [crTask] rfl rfl rfl
  · exact loadTasks_spec.2.2.2.2 exView 0 ()

/-- C7: quick-adding `"Fix bug #work @urgent !high due:tomorrow"` (with
no unarchived project named "work" present) yields a task titled
"Fix bug", assigned to a newly created project "work", associated with
tag id "urgent", with priority high and a due date of tomorrow at end
of day in local time.  `d` is today's local day and the explicit
date-format fallback is arbitrary (the keyword path decides). -/
theorem quickAdd_scenario (d : Int) (wd : Nat)
    (fb : String → Option LocalTime) (newId : String)
    (projects : List Project)
    (h : projects.find? (fun p => lowerStr p.name == "work" && !p.archived)
           = none) :
    (handleAdd d wd fb newId projects
        "Fix bug #work @urgent !high due:tomorrow").task.title = "Fix bug" ∧
    (handleAdd d wd fb newId projects
        "Fix bug #work @urgent !high due:tomorrow").task.projectId = "work" ∧
    (handleAdd d wd fb newId projects
        "Fix bug #work @urgent !high due:tomorrow").projects
      = projects ++ [{ id := "work", name := "work" }] ∧
    (handleAdd d wd fb newId projects
        "Fix bug #work @urgent !high due:tomorrow").tagRows
      = [{ id := "urgent", name := "@urgent" }] ∧
    (handleAdd d wd fb newId projects
        "Fix bug #work @urgent !high due:tomorrow").taskTagRows
      = [(newId, "urgent")] ∧
    (handleAdd d wd fb newId projects
        "Fix bug #work @urgent !high due:tomorrow").task.priority = .high ∧
    (handleAdd d wd fb newId projects
        "Fix bug #work @urgent !high due:tomorrow").task.dueDate
      = some (endOfDay (d + 1)) ∧
    (handleAdd d wd fb newId projects
        "Fix bug #work @urgent !high due:tomorrow").task.status = .pending := by
  have hparse : parseQuickAdd d wd fb "Fix bug #work @urgent !high due:tomorrow"
      = { title := "Fix bug", priority := .high,
          dueDate := some (endOfDay (d + 1)),
          parsedTags := ["@urgent"], parsedProject := "work" } := rfl
  unfold handleAdd
  rw [hparse]
  have hlw : lowerStr "work" = "work" := rfl
  simp only [hlw]
  simp only [h]
  and_intros <;> first | rfl | trivial

/-- Witness for C7 with an empty project table. -/
theorem quickAdd_scenario_witness :
    (handleAdd 0 0 (fun _ => none) "t1" []
        "Fix bug #work @urgent !high due:tomorrow").task.title = "Fix bug" ∧
    (handleAdd 0 0 (fun _ => none) "t1" []
        "Fix bug #work @urgent !high due:tomorrow").task.projectId
      = "work" ∧
    (handleAdd 0 0 (fun _ => none) "t1" []
        "Fix bug #work @urgent !high due:tomorrow").task.dueDate
      = some (endOfDay 1) := by
  have h := quickAdd_scenario 0 0 (fun _ => none) "t1" [] rfl
  exact ⟨h.1, h.2.1, h.2.2.2.2.2.2.1⟩

/-- Every verb (canonical name or alias) listed in `allCommands`. -/
def tableVerbs : List String :=
  allCommands.flatMap (fun c => c.name :: c.aliases)

/-- The table verbs `executeCommand`'s switch does not handle. -/
def deadVerbs : List String := ["move", "finish", "delete", "del", "rm"]

/-- Whether a dispatch result is the "Unknown command" status path. -/
def CmdHandler.isUnknown : CmdHandler → Bool
  | .unknown _ => true
  | _ => false

/-- C8 (amended): every canonical name and alias of the command table
dispatches the same mutation as its canonical name — except the
alias `move` (of `project`), the alias `finish` (of `done`) and the
entire `delete` entry (`delete`, `del`, `rm`), which the switch does
not handle and which therefore produce the "Unknown command" status
message; any verb outside the table also produces that status message,
never an error. -/
theorem executeCommand_spec :
    (∀ c ∈ allCommands, c.name ∉ deadVerbs →
       (dispatchVerb c.name).isUnknown = false ∧
       ∀ a ∈ c.aliases, a ∉ deadVerbs →
         dispatchVerb a = dispatchVerb c.name) ∧
    (∀ v ∈ deadVerbs, dispatchVerb v = .unknown v) ∧
    (∀ verb : String, lowerStr verb ∉ tableVerbs →
       dispatchVerb verb = .unknown (lowerStr verb)) := by
  refine ⟨by decide, by decide, ?_⟩
  intro verb h
  have hsub : ∀ k ∈ dispatchCases.map Prod.fst, k ∈ tableVerbs := by decide
  have hk : dispatchCases.lookup (lowerStr verb) = none := by
    apply lookup_eq_none_of_not_mem_keys
    intro hmem
    exact h (hsub _ hmem)
  simp [dispatchVerb, hk]

/-- Counterexample to C8 as stated: `move` is a listed alias of
`project` and `delete` is a listed canonical name, yet both fall
through to the "Unknown command" branch instead of dispatching the
mutation. -/
theorem executeCommand_counterexample :
    (allCommands.any
        (fun c => c.name == "project" && c.aliases.contains "move")) = true ∧
    dispatchVerb "project" = .moveToProject ∧
    dispatchVerb "move" = .unknown "move" ∧
    (allCommands.any (fun c => c.name == "delete")) = true ∧
    dispatchVerb "delete" = .unknown "delete" := by
  refine ⟨by decide, by decide, by decide, by decide, by decide⟩

/-- Witness for C8 at concrete verbs. -/
theorem executeCommand_spec_witness :
    dispatchVerb "frobnicate" = .unknown "frobnicate" :=
  executeCommand_spec.2.2 "frobnicate" (by decide)

/-- C9 (amended): in Search mode every keystroke (character or
backspace) re-applies the text filter live — the active filter and the
rendered sequence immediately reflect the new input text — and Escape
leaves Search mode keeping the currently typed (live-applied) filter
as the active filter, resetting the input widget display to it; it
does not restore the filter text committed before Search mode was
entered. -/
theorem searchMode_spec (v : ListView) (now : Int) :
    (∀ c : Char,
       (v.handleSearchMode now (.char c)).searchFilter = v.input.push c ∧
       (v.handleSearchMode now (.char c)).input = v.input.push c ∧
       (v.handleSearchMode now (.char c)).tasks
         = flattenTasks v.expanded
             (applyFilterList v.viewMode v.filterProjectID v.filterTagIDs
               (v.input.push c) now v.allTasks)) ∧
    ((v.handleSearchMode now .backspace).searchFilter
        = String.mk v.input.toList.dropLast ∧
     (v.handleSearchMode now .backspace).tasks
        = flattenTasks v.expanded
            (applyFilterList v.viewMode v.filterProjectID v.filterTagIDs
              (String.mk v.input.toList.dropLast) now v.allTasks)) ∧
    ((v.handleSearchMode now .esc).mode = .normal ∧
     (v.handleSearchMode now .esc).searchFilter = v.searchFilter ∧
     (v.handleSearchMode now .esc).input = v.searchFilter ∧
     (v.handleSearchMode now .esc).tasks = v.tasks ∧
     (v.handleSearchMode now .esc).allTasks = v.allTasks) :=
  ⟨fun _ => ⟨rfl, rfl, rfl⟩, ⟨rfl, rfl⟩, rfl, rfl, rfl, rfl, rfl⟩

/-- A view sitting in Search mode with committed filter text "a". -/
def searchView : ListView :=
  { exView with mode := .search, searchFilter := "a", input := "a" }

/-- Counterexample to C9 as stated: enter Search with committed filter
"a", type `b` (the filter becomes "ab" live), press Escape — the
active filter stays "ab"; it is not restored to the pre-Search value
"a". -/
theorem searchMode_counterexample :
    searchView.searchFilter = "a" ∧
    ((searchView.handleSearchMode 0 (.char 'b')).handleSearchMode 0
        .esc).searchFilter = "ab" ∧
    ((searchView.handleSearchMode 0 (.char 'b')).handleSearchMode 0
        .esc).mode = .normal ∧
    ("ab" : String) ≠ "a" := by
  refine ⟨rfl, rfl, rfl, by decide⟩

/-- C10: in Normal mode with no selector active, Escape clears exactly
one tier, in fixed priority order — a non-empty selection is emptied
(filters and expansion untouched); otherwise active filters are all
cleared at once; otherwise all expansions are collapsed; otherwise
nothing changes — and `allTasks` is never modified (the handler is a
pure function of the view state and issues no store operation). -/
theorem normalEsc_spec (v : ListView) (now : Int) :
    ((v.handleNormalEsc now).allTasks = v.allTasks) ∧
    (v.selected ≠ [] → v.handleNormalEsc now = { v with selected := [] }) ∧
    (v.selected = [] → v.hasActiveFilters = true →
       ((v.handleNormalEsc now).selected = [] ∧
        (v.handleNormalEsc now).searchFilter = "" ∧
        (v.handleNormalEsc now).filterProjectID = "" ∧
        (v.handleNormalEsc now).filterTagIDs = [] ∧
        (v.handleNormalEsc now).expanded = v.expanded)) ∧
    (v.selected = [] → v.hasActiveFilters = false → v.expanded ≠ [] →
       ((v.handleNormalEsc now).expanded = [] ∧
        (v.handleNormalEsc now).selected = [] ∧
        (v.handleNormalEsc now).searchFilter = v.searchFilter ∧
        (v.handleNormalEsc now).filterProjectID = v.filterProjectID ∧
        (v.handleNormalEsc now).filterTagIDs = v.filterTagIDs)) ∧
    (v.selected = [] → v.hasActiveFilters = false → v.expanded = [] →
       v.handleNormalEsc now = v) := by
  refine ⟨?_, ?_, ?_, ?_, ?_⟩
  · unfold ListView.handleNormalEsc
    split_ifs <;> rfl
  · intro hsel
    unfold ListView.handleNormalEsc
    have : (!v.selected.isEmpty) = true := by
      simpa [List.isEmpty_iff] using hsel
    simp [this]
  · intro hsel hfil
    unfold ListView.handleNormalEsc
    have h1 : (!v.selected.isEmpty) = false := by simp [hsel]
    simp [h1, hfil, ListView.applyFilter, hsel]
  · intro hsel hfil hexp
    unfold ListView.handleNormalEsc
    have h1 : (!v.selected.isEmpty) = false := by simp [hsel]
    have h2 : (!v.expanded.isEmpty) = true := by
      simpa [List.isEmpty_iff] using hexp
    simp [h1, hfil, h2, ListView.applyFilter, hsel]
  · intro hsel hfil hexp
    unfold ListView.handleNormalEsc
    have h1 : (!v.selected.isEmpty) = false := by simp [hsel]
    have h2 : (!v.expanded.isEmpty) = false := by simp [hexp]
    simp [h1, hfil, h2]

/-- A view with a selection and an active text filter. -/
def selView : ListView :=
  { exView with selected := ["x"], searchFilter := "q" }

/-- A view with no selection, an active filter, and an expansion. -/
def filtView : ListView :=
  { exView with searchFilter := "q", expanded := [("p", true)] }

/-- A view with only an expansion recorded. -/
def expView : ListView :=
  { exView with expanded := [("p", true)] }

/-- Witness for C10: one view per tier. -/
theorem normalEsc_spec_witness :
    (selView.handleNormalEsc 0 = { selView with selected := [] }) ∧
    ((filtView.handleNormalEsc 0).searchFilter = "" ∧
     (filtView.handleNormalEsc 0).expanded = filtView.expanded) ∧
    ((expView.handleNormalEsc 0).expanded = []) ∧
    (exView.handleNormalEsc 0 = exView) := by
  refine ⟨?_, ?_, ?_, ?_⟩
  · exact (normalEsc_spec selView 0).2.1 (by decide)
  · have h := (normalEsc_spec filtView 0).2.2.1 rfl (by decide)
    exact ⟨h.2.1, h.2.2.2.2⟩
  · exact ((normalEsc_spec expView 0).2.2.2.1 rfl (by decide)
      (by decide)).1
  · exact (normalEsc_spec exView 0).2.2.2.2 rfl (by decide) rfl

end Klonch
